import Mathlib

/-!
Verification of the diff-budgeting, line-accounting, schema-validation and
retry-loop core of the logchange action.  The definitions below are shallow
embeddings of the corresponding Python functions in
`src/action/src/github_client.py`, `src/action/src/legacy_changelog_handler.py`,
`src/action/src/changelog_validator.py` and
`src/action/src/changelog_generator.py`.  String primitives (`split`, `join`,
`lstrip`, `startswith`, `int`) are embedded with Python semantics.
-/

namespace Logchange

/-- Whether the character list `p` is an initial segment of `l`
(Python `str.startswith`, at the character level). -/
def chStarts : List Char → List Char → Bool
  | [], _ => true
  | _ :: _, [] => false
  | p :: ps, c :: cs => p == c && chStarts ps cs

/-- Python `s.startswith(pre)`. -/
def pyStartsWith (s pre : String) : Bool :=
  chStarts pre.data s.data

/-- Split a character list on a single separator character, keeping empty
pieces, as Python `str.split(sep)` does for a one-character separator. -/
def splitOnChar (c : Char) : List Char → List (List Char)
  | [] => [[]]
  | x :: xs =>
    match splitOnChar c xs with
    | [] => [[x]]
    | h :: t => if x == c then [] :: h :: t else (x :: h) :: t

/-- Python `s.split(sep)` for a one-character separator `sep`. -/
def pySplitChar (s : String) (c : Char) : List String :=
  (splitOnChar c s.data).map String.mk

/-- Python `sep.join(pieces)`. -/
def pyJoin (sep : String) : List String → String
  | [] => ""
  | [x] => x
  | x :: y :: rest => x ++ sep ++ pyJoin sep (y :: rest)

/-- Python `s.lstrip(chars)`: remove every leading character that is a member
of the character set `chars` (not prefix removal). -/
def pyLstrip (chars : List Char) (s : String) : String :=
  String.mk (s.data.dropWhile fun c => chars.contains c)

/-- Strip leading and trailing whitespace (Python `str.strip()`). -/
def pyStripWs (s : String) : String :=
  String.mk (((s.data.dropWhile Char.isWhitespace).reverse.dropWhile Char.isWhitespace).reverse)

/-- Value of a decimal digit list, most significant first. -/
def digitsToNat (l : List Char) : Nat :=
  l.foldl (fun a c => a * 10 + (c.toNat - 48)) 0

/-- Python `int(s)`: optional surrounding whitespace, optional single sign,
then a nonempty run of decimal digits; `none` models `ValueError`. -/
def pyInt (s : String) : Option Int :=
  let t := (pyStripWs s).data
  let signDigits : Int × List Char :=
    match t with
    | '-' :: rest => (-1, rest)
    | '+' :: rest => (1, rest)
    | _ => (1, t)
  if signDigits.2.isEmpty then none
  else if signDigits.2.all Char.isDigit then
    some (signDigits.1 * (digitsToNat signDigits.2 : Int))
  else none

/-- Decimal digits of `n`, via an explicit fuel argument. -/
def natToStrAux : Nat → Nat → List Char
  | 0, _ => []
  | fuel + 1, n =>
    if n < 10 then [Char.ofNat (48 + n)]
    else natToStrAux fuel (n / 10) ++ [Char.ofNat (48 + n % 10)]

/-- Decimal rendering of a natural number (Python `str(i)` inside f-strings). -/
def natToStr (n : Nat) : String :=
  String.mk (natToStrAux (n + 1) n)

/-! ## HunkPositionTracker
Embedding of `LegacyChangelogHandler.extract_added_lines_with_positions`
(`src/action/src/legacy_changelog_handler.py`, lines 95-146). -/

/-- Loop state of `extract_added_lines_with_positions`: the running line
number in the new file version, whether a hunk header has been seen, and the
accumulated `(line_number, content)` pairs. -/
structure HunkState where
  currentNewLine : Int
  inHunk : Bool
  acc : List (Int × String)
deriving DecidableEq, Repr

/-- Parse the new-file start offset out of a hunk header
`@@ -old_start,old_count +new_start,new_count @@`:
`int(line.split(" ")[2].split(",")[0].lstrip("+"))`; `none` models the
`IndexError`/`ValueError` path. -/
def parseNewStart (line : String) : Option Int :=
  match (pySplitChar line ' ').get? 2 with
  | none => none
  | some r =>
    match pySplitChar r ',' with
    | [] => none
    | p :: _ => pyInt (pyLstrip ['+'] p)

/-- One iteration of the `extract_added_lines_with_positions` loop. -/
def hunkStep (st : HunkState) (line : String) : HunkState :=
  if pyStartsWith line "@@" then
    match parseNewStart line with
    | some n => { st with currentNewLine := n, inHunk := true }
    | none => { st with inHunk := true }
  else if !st.inHunk then st
  else if pyStartsWith line "-" then st
  else if pyStartsWith line "+" && !pyStartsWith line "+++" then
    { st with acc := st.acc ++ [(st.currentNewLine, String.mk (line.data.drop 1))],
              currentNewLine := st.currentNewLine + 1 }
  else if !pyStartsWith line "\\" then
    { st with currentNewLine := st.currentNewLine + 1 }
  else st

/-- `LegacyChangelogHandler.extract_added_lines_with_positions`: replay the
diff line by line and return the added lines with their positions in the new
file version. -/
def extractAddedLinesWithPositions (diffContent : String) : List (Int × String) :=
  ((pySplitChar diffContent '\n').foldl hunkStep ⟨0, false, []⟩).acc

example : extractAddedLinesWithPositions "@@ -1,2 +1,3 @@\n+A\n c1\n c2\n@@ -10,2 +11,2 @@\n+B\n c3\n-r1"
    = [(1, "A"), (11, "B")] := by decide

/-! ## DiffBudgeter
Embedding of `GitHubClient._truncate_diff` and
`GitHubClient._build_file_list_section`
(`src/action/src/github_client.py`, lines 111-175). -/

/-- The truncation notice appended when the total budget is exhausted. -/
def truncMarker : String := "\n... (diff truncated due to size limits) ...\n"

/-- `GitHubClient._build_file_list_section`: the manifest listing every
edited file, rendered as bulleted lines between a fixed header and footer;
empty when the file list is empty. -/
def buildFileListSection (files : List String) : String :=
  if files.isEmpty then ""
  else "**All edited files in this PR:**\n"
    ++ pyJoin "\n" (files.map (fun f => "  - " ++ f))
    ++ "\n\n**Changes (may be truncated for size):**\n\n"

/-- The bulleted manifest lines, one per file, in order. -/
def fileListBullets (files : List String) : List String :=
  files.map (fun f => "  - " ++ f)

/-- Loop state of `_truncate_diff`: emitted lines, current-file tracker,
per-file line counter, cumulative character counter, and whether the scan
has stopped (`break`). -/
structure TruncState where
  resultLines : List String
  currentFile : Option String
  currentFileLines : Nat
  totalChars : Nat
  broken : Bool
deriving DecidableEq, Repr

/-- Python truthiness of the `current_file` variable: `None` and the empty
string are falsy. -/
def currentFileTruthy : Option String → Bool
  | none => false
  | some s => !s.data.isEmpty

/-- `result_lines and result_lines[-1].startswith("... ")`. -/
def lastLineStartsDots (ls : List String) : Bool :=
  match ls.getLast? with
  | some l => pyStartsWith l "... "
  | none => false

/-- The `if line.startswith("diff --git")` tracking block at the top of the
`_truncate_diff` loop: update the current-file tracker from the fourth
space-separated token (when present) and reset the per-file counter. -/
def trackFile (st : TruncState) (line : String) : TruncState :=
  if pyStartsWith line "diff --git" then
    match (pySplitChar line ' ').get? 3 with
    | some p => { st with currentFile := some (pyLstrip ['b', '/'] p), currentFileLines := 0 }
    | none => { st with currentFileLines := 0 }
  else st

/-- One iteration of the `_truncate_diff` loop, also reporting whether the
scanned line itself was emitted into `result_lines`.  A `broken` state
absorbs every further line, matching the `break` statement. -/
def truncStepE (maxPerFile : Nat) (available : Int) (st : TruncState) (line : String) :
    TruncState × Bool :=
  if st.broken then (st, false)
  else
    let st1 := trackFile st line
    if ((st1.totalChars + line.length + 1 : Nat) : Int) > available then
      if !st1.resultLines.isEmpty && !lastLineStartsDots st1.resultLines then
        ({ st1 with resultLines := st1.resultLines ++ [truncMarker], broken := true }, false)
      else ({ st1 with broken := true }, false)
    else if currentFileTruthy st1.currentFile && decide (st1.currentFileLines > maxPerFile)
        && !pyStartsWith line "diff --git" then
      (st1, false)
    else
      ({ st1 with resultLines := st1.resultLines ++ [line],
                  totalChars := st1.totalChars + line.length + 1,
                  currentFileLines := st1.currentFileLines + 1 }, true)

/-- One iteration of the `_truncate_diff` loop (state only). -/
def truncStep (maxPerFile : Nat) (available : Int) (st : TruncState) (line : String) :
    TruncState :=
  (truncStepE maxPerFile available st line).1

/-- `GitHubClient._truncate_diff`: prepend the complete file manifest, then
scan the diff body under the total character budget and the per-file line
budget. -/
def truncateDiff (diff : String) (files : List String) (maxTotal maxPerFile : Nat) : String :=
  buildFileListSection files ++
    pyJoin "\n" (((pySplitChar diff '\n').foldl
      (truncStep maxPerFile ((maxTotal : Int) - ((buildFileListSection files).length : Int)))
      ⟨[], none, 0, 0, false⟩).resultLines)

/-- Number of lines of `ls` that the loop emits themselves (the truncation
marker, which is appended in place of a line, is not counted). -/
def emitCount (m : Nat) (a : Int) : TruncState → List String → Nat
  | _, [] => 0
  | st, l :: ls =>
    (if (truncStepE m a st l).2 then 1 else 0) + emitCount m a (truncStepE m a st l).1 ls

example : truncateDiff "aaaa\naaaa\naaaa" [] 10 1
    = "aaaa\naaaa\n\n... (diff truncated due to size limits) ...\n" := by decide

example : (truncateDiff "aaaa\naaaa\naaaa" [] 10 1).length = 55 := by decide

example : truncateDiff "x" ["a"] 1 1 = buildFileListSection ["a"] := by decide

example : (truncStep 1000 1000000 ⟨[], none, 0, 0, false⟩
    "diff --git a/build.py b/build.py").currentFile = some "uild.py" := by decide

/-! ## GenerationRetryLoop
Embedding of `ChangelogGenerator.generate_with_validation`
(`src/action/src/changelog_generator.py`, lines 345-425).  The oracle is
abstracted as a function from the attempt number to the generation outcome
(`none` models a failed generation), and the validator as a function from the
generated text to `(is_valid, errors)`. -/

/-- The `while attempt <= max_retries:` loop of `generate_with_validation`,
by recursion on the number of attempts still allowed (`maxRetries + 2 -
attempt`); returns the `(entry, is_valid, message)` result together with the
number of oracle calls made.  `errs` threads the `validation_errors`
accumulator. -/
def genLoopAux (oracle : Nat → Option String) (validator : String → Bool × List String) :
    Nat → Nat → List String → ((Option String × Bool × String) × Nat)
  | 0, _, _ => ((none, false, "Unexpected error in generate_with_validation"), 0)
  | 1, attempt, _ =>
    match oracle attempt with
    | none => ((none, false, "Failed to generate valid YAML after retries"), 1)
    | some g =>
      let v := validator g
      if v.1 then ((some g, true, "Entry generated and validated successfully"), 1)
      else ((none, false, "Entry failed validation: " ++ pyJoin "; " v.2), 1)
  | r + 2, attempt, errs =>
    match oracle attempt with
    | none =>
      let rest := genLoopAux oracle validator (r + 1) (attempt + 1) errs
      (rest.1, rest.2 + 1)
    | some g =>
      let v := validator g
      if v.1 then ((some g, true, "Entry generated and validated successfully"), 1)
      else
        let rest := genLoopAux oracle validator (r + 1) (attempt + 1) v.2
        (rest.1, rest.2 + 1)

/-- `ChangelogGenerator.generate_with_validation` with the hard-coded
`max_retries = 2`: up to three attempts starting at attempt 1 with no prior
validation errors. -/
def generateWithValidation (oracle : Nat → Option String)
    (validator : String → Bool × List String) : Option String × Bool × String :=
  (genLoopAux oracle validator 3 1 []).1

/-- Number of oracle calls made by `generate_with_validation`. -/
def generateWithValidationCalls (oracle : Nat → Option String)
    (validator : String → Bool × List String) : Nat :=
  (genLoopAux oracle validator 3 1 []).2

example : generateWithValidationCalls (fun n => some (natToStr n)) (fun _ => (false, ["e1", "e2"])) = 3 := by decide

example : generateWithValidation (fun n => some (natToStr n)) (fun _ => (false, ["e1", "e2"]))
    = (none, false, "Entry failed validation: e1; e2") := by decide

/-! ## SchemaValidator
Embedding of `ChangelogValidator` (`src/action/src/changelog_validator.py`).
The YAML library is an external dependency, so the validator is embedded over
the outcome of `yaml.safe_load`: an exception (`Except.error`, the
`yaml.YAMLError` branch) or a parsed document value.  Empty input parses to
`Yaml.vnull` (`safe_load("")` returns `None`). -/

/-- A parsed YAML document as `yaml.safe_load` returns it: `None`, booleans,
numbers, strings, sequences, and string-keyed mappings. -/
inductive Yaml where
  | vnull
  | vbool (b : Bool)
  | vint (n : Int)
  | vstr (s : String)
  | vlist (l : List Yaml)
  | vmap (m : List (String × Yaml))

/-- Python truthiness of a parsed YAML value: `None`, `False`, `0`, the empty
string, the empty sequence and the empty mapping are falsy. -/
def yamlFalsy : Yaml → Bool
  | .vnull => true
  | .vbool b => !b
  | .vint n => n == 0
  | .vstr s => s.data.isEmpty
  | .vlist l => l.isEmpty
  | .vmap m => m.isEmpty

/-- Whether the value is a mapping (`isinstance(entry, dict)`). -/
def isYamlMap : Yaml → Bool
  | .vmap _ => true
  | _ => false

/-- Dictionary lookup `entry[k]` / membership `k in entry`. -/
def yamlGet (m : List (String × Yaml)) (k : String) : Option Yaml :=
  match m.find? (fun p => p.1 == k) with
  | some p => some p.2
  | none => none

/-- `field not in entry or entry[field] is None`. -/
def isMissingOrNull (m : List (String × Yaml)) (k : String) : Bool :=
  match yamlGet m k with
  | none => true
  | some .vnull => true
  | some _ => false

/-- `field in entry and entry[field] is not None`. -/
def isPresentNonNull (m : List (String × Yaml)) (k : String) : Bool :=
  match yamlGet m k with
  | none => false
  | some .vnull => false
  | some _ => true

/-- Python `==` between a YAML value and a string literal. -/
def yamlEqStr (y : Yaml) (s : String) : Bool :=
  match y with
  | .vstr t => t == s
  | _ => false

/-- Configuration of `ChangelogValidator.__init__` after defaulting. -/
structure ValidatorConfig where
  changelogTypes : List String
  mandatoryFields : List String
  forbiddenFields : List String
  optionalFields : List String

/-- `ChangelogValidator._validate_structure`: mandatory fields, forbidden
fields, unknown fields (only when a custom optional-field list is set), and
the `title` type check, with errors in that order. -/
def validateStructure (cfg : ValidatorConfig) (entry : List (String × Yaml)) : List String :=
  (cfg.mandatoryFields.filterMap fun fld =>
    if isMissingOrNull entry fld then some ("Missing mandatory field: " ++ fld) else none)
  ++ (cfg.forbiddenFields.filterMap fun fld =>
    if isPresentNonNull entry fld then some ("Forbidden field present: " ++ fld) else none)
  ++ (if !cfg.optionalFields.isEmpty then
        entry.filterMap fun p =>
          if !(cfg.optionalFields.contains p.1 || cfg.mandatoryFields.contains p.1) then
            some ("Unknown field: " ++ p.1)
          else none
      else [])
  ++ (match yamlGet entry "title" with
      | some (.vstr _) => []
      | some _ => ["title must be a string"]
      | none => [])

/-- `ChangelogValidator._validate_type`. -/
def validateType (types : List String) (t : Yaml) : List String :=
  match t with
  | .vstr s =>
    if types.contains s then []
    else ["Invalid type \"" ++ s ++ "\". Allowed types: " ++ pyJoin ", " types]
  | _ => ["type must be a string"]

/-- Per-element part of `ChangelogValidator._validate_authors`. -/
def validateAuthorsAux : Nat → List Yaml → List String
  | _, [] => []
  | i, a :: rest =>
    (match a with
     | .vmap am =>
       (match yamlGet am "name" with
        | none => ["authors[" ++ natToStr i ++ "] missing or empty \"name\" field"]
        | some v =>
          if yamlFalsy v then ["authors[" ++ natToStr i ++ "] missing or empty \"name\" field"]
          else [])
     | _ => ["authors[" ++ natToStr i ++ "] must be a dictionary"])
    ++ validateAuthorsAux (i + 1) rest

/-- `ChangelogValidator._validate_authors`. -/
def validateAuthors (a : Yaml) : List String :=
  match a with
  | .vlist l => validateAuthorsAux 0 l
  | _ => ["authors must be a list"]

/-- Per-element part of `ChangelogValidator._validate_configurations`. -/
def validateConfigurationsAux : Nat → List Yaml → List String
  | _, [] => []
  | i, c :: rest =>
    (match c with
     | .vmap cm =>
       (["type", "action", "key"].filterMap fun fld =>
         match yamlGet cm fld with
         | none =>
           some ("configurations[" ++ natToStr i ++ "] missing or empty \"" ++ fld ++ "\" field")
         | some v =>
           if yamlFalsy v then
             some ("configurations[" ++ natToStr i ++ "] missing or empty \"" ++ fld ++ "\" field")
           else none)
       ++ (match yamlGet cm "action" with
           | some v =>
             if yamlEqStr v "add" || yamlEqStr v "update" || yamlEqStr v "delete" then []
             else ["configurations[" ++ natToStr i ++ "] action must be \"add\", \"update\", or \"delete\""]
           | none => [])
     | _ => ["configurations[" ++ natToStr i ++ "] must be a dictionary"])
    ++ validateConfigurationsAux (i + 1) rest

/-- `ChangelogValidator._validate_configurations`. -/
def validateConfigurations (c : Yaml) : List String :=
  match c with
  | .vlist l => validateConfigurationsAux 0 l
  | _ => ["configurations must be a list"]

/-- `ChangelogValidator.validate`, over the parse outcome of the input text:
short-circuit on a parse error, a falsy document, or a non-mapping document;
otherwise accumulate every structural error. -/
def validateParsed (cfg : ValidatorConfig) (parsed : Except String Yaml) :
    Bool × List String :=
  match parsed with
  | .error e => (false, ["Invalid YAML: " ++ e])
  | .ok entry =>
    if yamlFalsy entry then (false, ["YAML is empty"])
    else
      match entry with
      | .vmap m =>
        let errors := validateStructure cfg m
          ++ (match yamlGet m "type" with
              | some t => validateType cfg.changelogTypes t
              | none => [])
          ++ (match yamlGet m "authors" with
              | some a => validateAuthors a
              | none => [])
          ++ (match yamlGet m "configurations" with
              | some c => validateConfigurations c
              | none => [])
        (errors.isEmpty, errors)
      | _ => (false, ["YAML must be a dictionary/object"])

/-- The standard fields allowed by default. -/
def STANDARD_FIELDS : List String :=
  ["title", "authors", "modules", "merge_requests", "issues", "type", "links",
   "important_notes", "configurations"]

/-- The standard changelog types. -/
def STANDARD_TYPES : List String :=
  ["added", "changed", "deprecated", "removed", "fixed", "security",
   "dependency_update", "other"]

/-- A `ChangelogValidator()` constructed with all defaults (the set-iteration
order of `list(STANDARD_TYPES)` is fixed arbitrarily; no claim depends on
it). -/
def defaultConfig : ValidatorConfig :=
  { changelogTypes := STANDARD_TYPES
    mandatoryFields := ["title"]
    forbiddenFields := []
    optionalFields := [] }

example : validateParsed defaultConfig (.ok (.vint 0)) = (false, ["YAML is empty"]) := by decide

example : validateParsed defaultConfig (.ok (.vlist [.vint 1]))
    = (false, ["YAML must be a dictionary/object"]) := by decide

example : validateParsed defaultConfig
    (.ok (.vmap [("title", .vstr "T"), ("authors", .vlist [.vmap [("nick", .vstr "j")]])]))
    = (false, ["authors[0] missing or empty \"name\" field"]) := by decide

example : validateParsed defaultConfig
    (.ok (.vmap [("title", .vstr "T"), ("type", .vstr "added")])) = (true, []) := by decide

/-! ## Helper lemmas -/

lemma chStarts_cons {p : Char} {ps l : List Char} (h : chStarts (p :: ps) l = true) :
    ∃ l', l = p :: l' ∧ chStarts ps l' = true := by
  cases l with
  | nil => simp [chStarts] at h
  | cons c cs =>
    simp only [chStarts, Bool.and_eq_true, beq_iff_eq] at h
    exact ⟨cs, by rw [h.1], h.2⟩

lemma trackFile_resultLines (st : TruncState) (line : String) :
    (trackFile st line).resultLines = st.resultLines := by
  unfold trackFile
  split
  · split <;> rfl
  · rfl

lemma trackFile_totalChars (st : TruncState) (line : String) :
    (trackFile st line).totalChars = st.totalChars := by
  unfold trackFile
  split
  · split <;> rfl
  · rfl

lemma trackFile_broken (st : TruncState) (line : String) :
    (trackFile st line).broken = st.broken := by
  unfold trackFile
  split
  · split <;> rfl
  · rfl

lemma trackFile_of_not_introducer (st : TruncState) (line : String)
    (h : pyStartsWith line "diff --git" = false) : trackFile st line = st := by
  unfold trackFile
  simp [h]

lemma truncStepE_broken (m : Nat) (a : Int) (st : TruncState) (l : String)
    (h : st.broken = true) : truncStepE m a st l = (st, false) := by
  unfold truncStepE
  simp [h]

lemma truncStep_broken (m : Nat) (a : Int) (st : TruncState) (l : String)
    (h : st.broken = true) : truncStep m a st l = st := by
  unfold truncStep
  rw [truncStepE_broken m a st l h]

lemma foldl_truncStep_broken (m : Nat) (a : Int) (ls : List String) (st : TruncState)
    (h : st.broken = true) : ls.foldl (truncStep m a) st = st := by
  induction ls with
  | nil => rfl
  | cons l ls ih => rw [List.foldl_cons, truncStep_broken m a st l h]; exact ih

lemma emitCount_broken (m : Nat) (a : Int) (ls : List String) (st : TruncState)
    (h : st.broken = true) : emitCount m a st ls = 0 := by
  induction ls with
  | nil => rfl
  | cons l ls ih =>
    simp only [emitCount, truncStepE_broken m a st l h]
    simpa using ih

lemma splitOnChar_ne_nil (c : Char) (l : List Char) : splitOnChar c l ≠ [] := by
  cases l with
  | nil => simp [splitOnChar]
  | cons x xs =>
    simp only [splitOnChar]
    split
    · simp
    · split <;> simp

lemma pySplitChar_ne_nil (s : String) (c : Char) : pySplitChar s c ≠ [] := by
  unfold pySplitChar
  simp [splitOnChar_ne_nil]

lemma str_append_empty (s : String) : s ++ "" = s := by
  simp

/-- Sum of line lengths plus one separator character each, matching the
`total_chars` accounting of `_truncate_diff`. -/
def sumLen1 (ls : List String) : Nat :=
  (ls.map (fun l => l.length + 1)).sum

lemma sumLen1_append (a b : List String) : sumLen1 (a ++ b) = sumLen1 a + sumLen1 b := by
  simp [sumLen1]

lemma sumLen1_singleton (l : String) : sumLen1 [l] = l.length + 1 := by
  simp [sumLen1]

lemma pyJoin_newline_length (ls : List String) (h : ls ≠ []) :
    (pyJoin "\n" ls).length + 1 = sumLen1 ls := by
  induction ls with
  | nil => cases h rfl
  | cons x rest ih =>
    cases rest with
    | nil => simp [pyJoin, sumLen1]
    | cons y r =>
      have hr := ih (by simp)
      have hn : ("\n" : String).length = 1 := rfl
      simp only [pyJoin, String.length_append, hn, sumLen1, List.map_cons, List.sum_cons] at hr ⊢
      omega

/-- Loop invariant of `_truncate_diff`: while the scan is running, the
emitted lines account for exactly `total_chars` characters (one separator
each) and `total_chars` never exceeds the available body budget; once the
scan has stopped, the emitted lines may additionally hold one truncation
marker. -/
def TruncInv (a : Int) (st : TruncState) : Prop :=
  (st.broken = false →
    sumLen1 st.resultLines = st.totalChars ∧ (st.totalChars : Int) ≤ max a 0) ∧
  (st.broken = true →
    (sumLen1 st.resultLines : Int) ≤ max a 0 + ((truncMarker.length : Int) + 1))

lemma truncStep_inv (m : Nat) (a : Int) (st : TruncState) (line : String)
    (h : TruncInv a st) : TruncInv a (truncStep m a st line) := by
  by_cases hb : st.broken = true
  · rw [truncStep_broken m a st line hb]
    exact h
  · have hb' : st.broken = false := by simpa using hb
    obtain ⟨hsum, hle⟩ := h.1 hb'
    simp only [truncStep, truncStepE, hb', Bool.false_eq_true, if_false]
    by_cases hbud : (((trackFile st line).totalChars + line.length + 1 : Nat) : Int) > a
    · rw [if_pos hbud]
      by_cases hmark : (!(trackFile st line).resultLines.isEmpty
          && !lastLineStartsDots (trackFile st line).resultLines) = true
      · rw [if_pos hmark]
        dsimp only
        constructor
        · intro hcontra
          simp at hcontra
        · intro _
          show (sumLen1 ((trackFile st line).resultLines ++ [truncMarker]) : Int) ≤ _
          rw [sumLen1_append, sumLen1_singleton, trackFile_resultLines, hsum]
          have hz1 : a ≤ max a 0 := le_max_left a 0
          have hz2 : (0 : Int) ≤ max a 0 := le_max_right a 0
          push_cast
          omega
      · rw [if_neg hmark]
        dsimp only
        constructor
        · intro hcontra
          simp at hcontra
        · intro _
          show (sumLen1 (trackFile st line).resultLines : Int) ≤ _
          rw [trackFile_resultLines, hsum]
          have : (0 : Int) ≤ (truncMarker.length : Int) + 1 := by positivity
          omega
    · rw [if_neg hbud]
      split
      · dsimp only
        constructor
        · intro _
          refine ⟨?_, ?_⟩
          · rw [trackFile_resultLines, trackFile_totalChars]
            exact hsum
          · rw [trackFile_totalChars]
            exact hle
        · intro hcontra
          rw [trackFile_broken, hb'] at hcontra
          cases hcontra
      · dsimp only
        constructor
        · intro _
          refine ⟨?_, ?_⟩
          · show sumLen1 ((trackFile st line).resultLines ++ [line]) = _
            rw [sumLen1_append, sumLen1_singleton, trackFile_resultLines, hsum,
              trackFile_totalChars]
            dsimp only
            omega
          · show (((trackFile st line).totalChars + line.length + 1 : Nat) : Int) ≤ max a 0
            have hz1 : a ≤ max a 0 := le_max_left a 0
            omega
        · intro hcontra
          have : (trackFile st line).broken = true := hcontra
          rw [trackFile_broken, hb'] at this
          cases this

lemma foldl_truncStep_inv (m : Nat) (a : Int) (ls : List String) (st : TruncState)
    (h : TruncInv a st) : TruncInv a (ls.foldl (truncStep m a) st) := by
  induction ls generalizing st with
  | nil => exact h
  | cons l ls ih => exact ih _ (truncStep_inv m a st l h)

lemma truncInv_initial (a : Int) : TruncInv a ⟨[], none, 0, 0, false⟩ := by
  constructor
  · intro _
    exact ⟨rfl, le_max_right a 0⟩
  · intro hc
    cases hc

/-- When the budget check fires, the scan stops: the line itself is not
emitted, `total_chars` does not advance, and at most a truncation marker is
appended. -/
lemma truncStepE_budget (m : Nat) (a : Int) (st : TruncState) (l : String)
    (hb : st.broken = false)
    (hbud : ((st.totalChars + l.length + 1 : Nat) : Int) > a) :
    (truncStepE m a st l).1.broken = true ∧ (truncStepE m a st l).2 = false ∧
    (truncStepE m a st l).1.totalChars = st.totalChars ∧
    ((truncStepE m a st l).1.resultLines = st.resultLines ∨
      (truncStepE m a st l).1.resultLines = st.resultLines ++ [truncMarker]) := by
  simp only [truncStepE, hb, Bool.false_eq_true, if_false]
  rw [if_pos (by rwa [trackFile_totalChars])]
  split
  · exact ⟨rfl, rfl, trackFile_totalChars st l, Or.inr (by rw [trackFile_resultLines])⟩
  · exact ⟨rfl, rfl, trackFile_totalChars st l, Or.inl (trackFile_resultLines st l)⟩

/-- When the per-file counter has exceeded the per-file budget on a tracked
file and the line is not a file introducer, the line is skipped outright. -/
lemma truncStepE_skip (m : Nat) (a : Int) (st : TruncState) (l : String)
    (hb : st.broken = false)
    (hbud : ¬ ((st.totalChars + l.length + 1 : Nat) : Int) > a)
    (hni : pyStartsWith l "diff --git" = false)
    (htr : currentFileTruthy st.currentFile = true)
    (hc : st.currentFileLines > m) :
    truncStepE m a st l = (st, false) := by
  simp only [truncStepE, hb, Bool.false_eq_true, if_false]
  rw [trackFile_of_not_introducer st l hni, if_neg hbud,
    if_pos (by simp [htr, hc, hni])]

/-- When neither the budget check nor the per-file cap fires, the line is
emitted and all three counters advance. -/
lemma truncStepE_emit (m : Nat) (a : Int) (st : TruncState) (l : String)
    (hb : st.broken = false)
    (hbud : ¬ ((st.totalChars + l.length + 1 : Nat) : Int) > a)
    (hni : pyStartsWith l "diff --git" = false)
    (hcap : ¬ (currentFileTruthy st.currentFile = true ∧ st.currentFileLines > m)) :
    truncStepE m a st l
      = ({ st with resultLines := st.resultLines ++ [l],
                   totalChars := st.totalChars + l.length + 1,
                   currentFileLines := st.currentFileLines + 1 }, true) := by
  simp only [truncStepE, hb, Bool.false_eq_true, if_false]
  rw [trackFile_of_not_introducer st l hni, if_neg hbud, if_neg]
  · rw [hb]
  · intro hcond
    rw [hni] at hcond
    simp at hcond
    exact hcap ⟨hcond.1, hcond.2⟩

/-- A file-introducer line resets the per-file counter to zero. -/
lemma trackFile_counter_zero (st : TruncState) (l : String)
    (hi : pyStartsWith l "diff --git" = true) :
    (trackFile st l).currentFileLines = 0 := by
  unfold trackFile
  rw [if_pos hi]
  split <;> rfl

/-- A parsable file-introducer line sets the current-file tracker to the
fourth token with all leading `b` and `/` characters stripped. -/
lemma trackFile_currentFile_some (st : TruncState) (l p : String)
    (hi : pyStartsWith l "diff --git" = true)
    (hp : (pySplitChar l ' ').get? 3 = some p) :
    (trackFile st l).currentFile = some (pyLstrip ['b', '/'] p) := by
  unfold trackFile
  rw [if_pos hi, hp]

/-- A file-introducer line that passes the budget check is always emitted,
leaving the per-file counter at one and the scan running. -/
lemma truncStepE_introducer (m : Nat) (a : Int) (st : TruncState) (l : String)
    (hb : st.broken = false)
    (hi : pyStartsWith l "diff --git" = true)
    (hbud : ¬ ((st.totalChars + l.length + 1 : Nat) : Int) > a) :
    (truncStepE m a st l).2 = true ∧
    (truncStepE m a st l).1.currentFileLines = 1 ∧
    (truncStepE m a st l).1.currentFile = (trackFile st l).currentFile ∧
    (truncStepE m a st l).1.broken = false := by
  simp only [truncStepE, hb, Bool.false_eq_true, if_false]
  rw [if_neg (by rwa [trackFile_totalChars])]
  rw [if_neg (by simp [trackFile_counter_zero st l hi])]
  refine ⟨rfl, by rw [trackFile_counter_zero st l hi], rfl, ?_⟩
  show (trackFile st l).broken = false
  rw [trackFile_broken, hb]

/-- While scanning lines that never introduce a new file, the number of lines
the loop emits is bounded by the per-file budget plus one minus the current
per-file counter (the tracked current file stays fixed). -/
lemma emitCount_cap (m : Nat) (a : Int) (ls : List String) :
    ∀ st : TruncState, (∀ l ∈ ls, pyStartsWith l "diff --git" = false) →
      currentFileTruthy st.currentFile = true →
      emitCount m a st ls ≤ m + 1 - st.currentFileLines := by
  induction ls with
  | nil =>
    intro st _ _
    simp [emitCount]
  | cons l ls ih =>
    intro st hni htr
    have hl : pyStartsWith l "diff --git" = false := hni l (List.mem_cons_self l ls)
    have hrest : ∀ l' ∈ ls, pyStartsWith l' "diff --git" = false :=
      fun l' h' => hni l' (List.mem_cons_of_mem l h')
    by_cases hb : st.broken = true
    · rw [emitCount_broken m a (l :: ls) st hb]
      exact Nat.zero_le _
    · have hb' : st.broken = false := by simpa using hb
      simp only [emitCount]
      by_cases hbud : ((st.totalChars + l.length + 1 : Nat) : Int) > a
      · obtain ⟨hbk, hemit, -, -⟩ := truncStepE_budget m a st l hb' hbud
        rw [hemit, emitCount_broken m a ls _ hbk]
        simp
      · by_cases hc : st.currentFileLines > m
        · rw [truncStepE_skip m a st l hb' hbud hl htr hc]
          dsimp only
          simpa using ih st hrest htr
        · rw [truncStepE_emit m a st l hb' hbud hl (fun hpair => hc hpair.2)]
          dsimp only
          have hihs := ih { st with resultLines := st.resultLines ++ [l],
                                    totalChars := st.totalChars + l.length + 1,
                                    currentFileLines := st.currentFileLines + 1 } hrest htr
          dsimp only at hihs
          have hcm : st.currentFileLines ≤ m := Nat.not_lt.mp hc
          simp only [if_true]
          omega

/-! ## Claims -/

/-- C1: for every diff, ordered file list, and budgets with `t` at least the
length of the rendered manifest, the output of the diff compressor begins
with the manifest section, and that manifest renders one bulleted line for
every path of the file list (in order), regardless of how much of the diff
body was truncated. -/
theorem manifest_lists_every_file (diff : String) (files : List String)
    (t f : Nat) (ht : (buildFileListSection files).length ≤ t) :
    ∃ body, truncateDiff diff files t f = buildFileListSection files ++ body ∧
      (fileListBullets files).length = files.length ∧
      (∀ i, (h : i < files.length) →
        (fileListBullets files).get ⟨i, by simpa [fileListBullets] using h⟩
          = "  - " ++ files.get ⟨i, h⟩) ∧
      (∀ p ∈ files, ("  - " ++ p) ∈ fileListBullets files) ∧
      (files ≠ [] → buildFileListSection files =
        "**All edited files in this PR:**\n" ++ pyJoin "\n" (fileListBullets files)
          ++ "\n\n**Changes (may be truncated for size):**\n\n") := by
  refine ⟨_, rfl, by simp [fileListBullets], ?_, ?_, ?_⟩
  · intro i h
    simp [fileListBullets]
  · intro p hp
    exact List.mem_map_of_mem _ hp
  · intro hne
    simp only [buildFileListSection, fileListBullets]
    rw [if_neg (by simpa using hne)]

/-- Witness for C1 at a concrete diff, file list and budgets. -/
theorem manifest_lists_every_file_witness :
    ∃ body, truncateDiff "x" ["a", "b"] 200 5 = buildFileListSection ["a", "b"] ++ body ∧
      (fileListBullets ["a", "b"]).length = (["a", "b"] : List String).length ∧
      (∀ i, (h : i < (["a", "b"] : List String).length) →
        (fileListBullets ["a", "b"]).get ⟨i, by simpa [fileListBullets] using h⟩
          = "  - " ++ (["a", "b"] : List String).get ⟨i, h⟩) ∧
      (∀ p ∈ (["a", "b"] : List String), ("  - " ++ p) ∈ fileListBullets ["a", "b"]) ∧
      ((["a", "b"] : List String) ≠ [] → buildFileListSection ["a", "b"] =
        "**All edited files in this PR:**\n" ++ pyJoin "\n" (fileListBullets ["a", "b"])
          ++ "\n\n**Changes (may be truncated for size):**\n\n") :=
  manifest_lists_every_file "x" ["a", "b"] 200 5 (by decide)

/-- C4: on a two-hunk diff with headers `@@ -1,2 +1,3 @@` and
`@@ -10,2 +11,2 @@`, each with one added line directly after its header, the
tracker reports positions 1 and 11; and in general every hunk header whose
new-start offset parses resets the running counter to that offset without
recording anything. -/
theorem hunk_positions_reset_per_hunk :
    ((extractAddedLinesWithPositions
        "@@ -1,2 +1,3 @@\n+A\n c1\n c2\n@@ -10,2 +11,2 @@\n+B\n c3\n-r1").map Prod.fst
      = [1, 11]) ∧
    (∀ (st : HunkState) (line : String) (n : Int),
      pyStartsWith line "@@" = true → parseNewStart line = some n →
      (hunkStep st line).currentNewLine = n ∧ (hunkStep st line).inHunk = true ∧
      (hunkStep st line).acc = st.acc) := by
  refine ⟨by decide, ?_⟩
  intro st line n h hp
  simp [hunkStep, h, hp]

/-- Witness for C4's general hunk-header clause at a concrete header. -/
theorem hunk_positions_reset_per_hunk_witness :
    (hunkStep ⟨42, true, []⟩ "@@ -1,2 +5,3 @@").currentNewLine = 5 ∧
    (hunkStep ⟨42, true, []⟩ "@@ -1,2 +5,3 @@").inHunk = true ∧
    (hunkStep ⟨42, true, []⟩ "@@ -1,2 +5,3 @@").acc = (⟨42, true, []⟩ : HunkState).acc :=
  hunk_positions_reset_per_hunk.2 ⟨42, true, []⟩ "@@ -1,2 +5,3 @@" 5 (by decide) (by decide)

/-- C2 counterexample: with an empty file list, `totalBudget = 10` and
`perFileBudget = 1`, the diff `aaaa\naaaa\naaaa` compresses to the first two
lines plus the truncation marker — 55 characters, exceeding the
10-character total budget, because the marker is appended without being
counted against the budget. -/
theorem compress_total_budget_counterexample :
    (truncateDiff "aaaa\naaaa\naaaa" [] 10 1).length = 55 ∧
    ¬ (truncateDiff "aaaa\naaaa\naaaa" [] 10 1).length ≤ 10 := by
  constructor <;> decide

/-- C2 (amended): for positive budgets, the length of the compressed output
is at most `max totalBudget manifestLength` plus the length of the
truncation marker (45 characters): the marker is appended without being
counted against the budget, and the manifest is always emitted in full even
when it alone exceeds `totalBudget`. -/
theorem compress_total_length_bound (diff : String) (files : List String)
    (t f : Nat) (ht : 0 < t) (hf : 0 < f) :
    (truncateDiff diff files t f).length
      ≤ max t (buildFileListSection files).length + truncMarker.length := by
  have hinv := foldl_truncStep_inv f ((t : Int) - ((buildFileListSection files).length : Int))
    (pySplitChar diff '\n') ⟨[], none, 0, 0, false⟩
    (truncInv_initial ((t : Int) - ((buildFileListSection files).length : Int)))
  set M : Nat := (buildFileListSection files).length with hM
  set a : Int := (t : Int) - (M : Int) with ha
  set final : TruncState := (pySplitChar diff '\n').foldl
    (truncStep f a) ⟨[], none, 0, 0, false⟩ with hfinal
  have hgoal : truncateDiff diff files t f
      = buildFileListSection files ++ pyJoin "\n" final.resultLines := rfl
  rw [hgoal, String.length_append]
  have hml : truncMarker.length = 45 := rfl
  have hmax : max a 0 + (M : Int) = max (t : Int) (M : Int) := by
    rcases le_total (t : Int) (M : Int) with h1 | h1
    · rw [max_eq_right (by omega), max_eq_right h1]
      ring
    · rw [max_eq_left (by omega), max_eq_left h1]
      ring
  by_cases hrl : final.resultLines = []
  · rw [hrl]
    show M + ("" : String).length ≤ max t M + truncMarker.length
    have h1 : M ≤ max t M := le_max_right t M
    have h2 : ("" : String).length = 0 := rfl
    omega
  · have hj := pyJoin_newline_length final.resultLines hrl
    have hsum : (sumLen1 final.resultLines : Int) ≤ max a 0 + ((truncMarker.length : Int) + 1) := by
      rcases Bool.eq_false_or_eq_true final.broken with hb | hb
      · exact hinv.2 hb
      · obtain ⟨he, hle⟩ := hinv.1 hb
        rw [he]
        have : (0 : Int) ≤ (truncMarker.length : Int) + 1 := by positivity
        omega
    zify
    rw [← hM]
    have hml' : ((truncMarker.length : Nat) : Int) = 45 := by rw [hml]; rfl
    rw [hml'] at hsum ⊢
    have hj' : ((pyJoin "\n" final.resultLines).length : Int) + 1
        = (sumLen1 final.resultLines : Int) := by exact_mod_cast hj
    omega

/-- Witness for amended C2 at a concrete diff and budgets. -/
theorem compress_total_length_bound_witness :
    (truncateDiff "aaaa\naaaa\naaaa" [] 10 1).length
      ≤ max 10 (buildFileListSection []).length + truncMarker.length :=
  compress_total_length_bound "aaaa\naaaa\naaaa" [] 10 1 (by decide) (by decide)

/-- C5 counterexample: the claim's per-file cap does not hold for every file
section.  For the path `bbb`, `parts[3].lstrip("b/")` strips the whole
token to the empty string, `current_file` is falsy, and per-file capping is
skipped: with `perFileBudget = 1` all four body lines of the section are
retained (the emission count over the body is 4, not at most 1), while a
section with the normally-tracked path `x.py` is capped at one body line
under the same budgets. -/
theorem uncapped_falsy_file_counterexample :
    truncateDiff "diff --git a/bbb b/bbb\n+l1\n+l2\n+l3\n+l4" ["bbb"] 1000 1
      = buildFileListSection ["bbb"] ++ "diff --git a/bbb b/bbb\n+l1\n+l2\n+l3\n+l4" ∧
    pyLstrip ['b', '/'] "b/bbb" = "" ∧
    emitCount 1 ((1000 : Int) - ((buildFileListSection ["bbb"]).length : Int))
      (truncStep 1 ((1000 : Int) - ((buildFileListSection ["bbb"]).length : Int))
        ⟨[], none, 0, 0, false⟩ "diff --git a/bbb b/bbb")
      ["+l1", "+l2", "+l3", "+l4"] = 4 ∧
    ¬ (4 ≤ 1) ∧
    truncateDiff "diff --git a/x.py b/x.py\n+l1\n+l2\n+l3\n+l4" ["x.py"] 1000 1
      = buildFileListSection ["x.py"] ++ "diff --git a/x.py b/x.py\n+l1" := by
  refine ⟨by decide, by decide, by decide, by decide, by decide⟩

/-- C5 (amended): the per-file cap holds exactly for the file sections the
code actually tracks — those whose introducer line parses (a fourth
space-separated token exists) to a current-file path that is non-empty after
stripping leading `b`/`/` characters; sections whose path strips to the
empty string have a falsy `current_file` and are not capped at all.
(i) after any such file-introducer line, at most `perFileBudget` of the
following body lines (lines up to the next introducer) are emitted into the
output, from any loop state — since `compress` folds this very step function
over the diff's lines, every tracked file section of every diff retains at
most `perFileBudget` body lines; (ii) once the per-file counter has exceeded
`perFileBudget` on a tracked file, a further non-introducer line of that
file is never emitted itself and never advances the total character counter
(at most the truncation marker is appended when that line trips the
total-budget check); (iii) a file-introducer line resets the per-file
counter and is emitted subject to the total-budget check. -/
theorem per_file_budget_cap :
    (∀ (m : Nat) (a : Int) (st : TruncState) (fileLine : String) (body : List String)
      (p : String),
      pyStartsWith fileLine "diff --git" = true →
      (pySplitChar fileLine ' ').get? 3 = some p →
      (pyLstrip ['b', '/'] p).data ≠ [] →
      (∀ l ∈ body, pyStartsWith l "diff --git" = false) →
      emitCount m a (truncStep m a st fileLine) body ≤ m) ∧
    (∀ (m : Nat) (a : Int) (st : TruncState) (l : String),
      st.broken = false → currentFileTruthy st.currentFile = true →
      st.currentFileLines > m → pyStartsWith l "diff --git" = false →
      (truncStepE m a st l).2 = false ∧
      (truncStep m a st l).totalChars = st.totalChars ∧
      ((truncStep m a st l).resultLines = st.resultLines ∨
        (truncStep m a st l).resultLines = st.resultLines ++ [truncMarker])) ∧
    (∀ (m : Nat) (a : Int) (st : TruncState) (l : String),
      st.broken = false → pyStartsWith l "diff --git" = true →
      (¬ ((st.totalChars + l.length + 1 : Nat) : Int) > a →
        (truncStepE m a st l).2 = true ∧ (truncStep m a st l).currentFileLines = 1) ∧
      (((st.totalChars + l.length + 1 : Nat) : Int) > a →
        (truncStepE m a st l).2 = false)) := by
  refine ⟨?_, ?_, ?_⟩
  · intro m a st fileLine body p hi hp hne hbody
    by_cases hb : st.broken = true
    · rw [truncStep_broken m a st fileLine hb, emitCount_broken m a body st hb]
      exact Nat.zero_le m
    · have hb' : st.broken = false := by simpa using hb
      by_cases hbud : ((st.totalChars + fileLine.length + 1 : Nat) : Int) > a
      · obtain ⟨hbk, -, -, -⟩ := truncStepE_budget m a st fileLine hb' hbud
        show emitCount m a (truncStepE m a st fileLine).1 body ≤ m
        rw [emitCount_broken m a body _ hbk]
        exact Nat.zero_le m
      · obtain ⟨-, hcl, hcf, -⟩ := truncStepE_introducer m a st fileLine hb' hi hbud
        have htr : currentFileTruthy (truncStepE m a st fileLine).1.currentFile = true := by
          rw [hcf, trackFile_currentFile_some st fileLine p hi hp]
          simp only [currentFileTruthy, Bool.not_eq_true']
          exact (Bool.not_eq_true _).mp (by simpa using hne)
        have hcap := emitCount_cap m a body (truncStepE m a st fileLine).1 hbody htr
        rw [hcl] at hcap
        show emitCount m a (truncStepE m a st fileLine).1 body ≤ m
        omega
  · intro m a st l hb htr hc hni
    by_cases hbud : ((st.totalChars + l.length + 1 : Nat) : Int) > a
    · obtain ⟨-, hemit, htot, hres⟩ := truncStepE_budget m a st l hb hbud
      exact ⟨hemit, htot, hres⟩
    · have hskip := truncStepE_skip m a st l hb hbud hni htr hc
      refine ⟨by rw [hskip], ?_, Or.inl ?_⟩
      · show (truncStepE m a st l).1.totalChars = st.totalChars
        rw [hskip]
      · show (truncStepE m a st l).1.resultLines = st.resultLines
        rw [hskip]
  · intro m a st l hb hi
    constructor
    · intro hbud
      obtain ⟨he, hcl, -, -⟩ := truncStepE_introducer m a st l hb hi hbud
      exact ⟨he, hcl⟩
    · intro hbud
      obtain ⟨-, he, -, -⟩ := truncStepE_budget m a st l hb hbud
      exact he

/-- Witness for C5 at concrete states, lines and budgets. -/
theorem per_file_budget_cap_witness :
    emitCount 1 1000 (truncStep 1 1000 ⟨[], none, 0, 0, false⟩ "diff --git a/x b/x")
      ["+a", "+b", "+c"] ≤ 1 ∧
    ((truncStepE 1 1000 (⟨["d"], some "x", 5, 4, false⟩ : TruncState) "+zz").2 = false ∧
      (truncStep 1 1000 (⟨["d"], some "x", 5, 4, false⟩ : TruncState) "+zz").totalChars
        = (⟨["d"], some "x", 5, 4, false⟩ : TruncState).totalChars ∧
      ((truncStep 1 1000 (⟨["d"], some "x", 5, 4, false⟩ : TruncState) "+zz").resultLines
          = (⟨["d"], some "x", 5, 4, false⟩ : TruncState).resultLines ∨
        (truncStep 1 1000 (⟨["d"], some "x", 5, 4, false⟩ : TruncState) "+zz").resultLines
          = (⟨["d"], some "x", 5, 4, false⟩ : TruncState).resultLines ++ [truncMarker])) ∧
    ((truncStepE 1 1000 (⟨[], none, 0, 0, false⟩ : TruncState) "diff --git a/x b/x").2 = true ∧
      (truncStep 1 1000 (⟨[], none, 0, 0, false⟩ : TruncState)
        "diff --git a/x b/x").currentFileLines = 1) :=
  ⟨per_file_budget_cap.1 1 1000 ⟨[], none, 0, 0, false⟩ "diff --git a/x b/x"
      ["+a", "+b", "+c"] "b/x" (by decide) (by decide) (by decide) (by decide),
   per_file_budget_cap.2.1 1 1000 ⟨["d"], some "x", 5, 4, false⟩ "+zz"
      (by decide) (by decide) (by decide) (by decide),
   (per_file_budget_cap.2.2 1 1000 ⟨[], none, 0, 0, false⟩ "diff --git a/x b/x"
      (by decide) (by decide)).1 (by decide)⟩

/-- C6 counterexample: inside a hunk (header start offset 5), a line carrying
the three-character file-boundary marker is scanned before an added line; the
added line is reported at position 6, so the boundary line advanced the
counter, refuting the claimed no-op. -/
theorem plus_boundary_counterexample :
    extractAddedLinesWithPositions "@@ -1,1 +5,2 @@\n+++ boundary\n+added"
      = [(6, "added")] ∧
    extractAddedLinesWithPositions "@@ -1,1 +5,2 @@\n+++ boundary\n+added"
      ≠ [(5, "added")] := by
  constructor <;> decide

/-- C6 (amended): while inside a hunk, a line beginning with the
three-character file-boundary marker is not recorded as an added line, but it
does advance the running new-line counter, exactly like a context line. -/
theorem plus_boundary_advances_counter (st : HunkState) (line : String)
    (rest : List Char) (hin : st.inHunk = true)
    (hdata : line.data = '+' :: '+' :: '+' :: rest) :
    (hunkStep st line).acc = st.acc ∧
    (hunkStep st line).currentNewLine = st.currentNewLine + 1 := by
  have hAt : pyStartsWith line "@@" = false := by
    simp [pyStartsWith, hdata, show ("@@" : String).data = ['@', '@'] from rfl, chStarts,
      show ('@' == '+') = false from rfl]
  have hDash : pyStartsWith line "-" = false := by
    simp [pyStartsWith, hdata, show ("-" : String).data = ['-'] from rfl, chStarts,
      show ('-' == '+') = false from rfl]
  have hTriple : pyStartsWith line "+++" = true := by
    simp [pyStartsWith, hdata, show ("+++" : String).data = ['+', '+', '+'] from rfl, chStarts]
  have hBack : pyStartsWith line "\\" = false := by
    simp [pyStartsWith, hdata, show ("\\" : String).data = ['\\'] from rfl, chStarts,
      show ('\\' == '+') = false from rfl]
  simp [hunkStep, hAt, hin, hDash, hTriple, hBack]

/-- Witness for amended C6 at a concrete in-hunk state and boundary line. -/
theorem plus_boundary_advances_counter_witness :
    (hunkStep ⟨3, true, []⟩ "+++ b/f").acc = (⟨3, true, []⟩ : HunkState).acc ∧
    (hunkStep ⟨3, true, []⟩ "+++ b/f").currentNewLine
      = (⟨3, true, []⟩ : HunkState).currentNewLine + 1 :=
  plus_boundary_advances_counter ⟨3, true, []⟩ "+++ b/f" [' ', 'b', '/', 'f'] rfl rfl

/-- C7: evaluation of the file-introducer tracking at the failing input
`diff --git a/build.py b/build.py`.  The code computes
`parts[3].lstrip("b/")`, which strips every leading `b` and `/` character,
so the current-file tracker becomes `uild.py` instead of the path
`build.py`. -/
theorem lstrip_failing_input_eval :
    (truncStep 1000 1000000 ⟨[], none, 0, 0, false⟩
        "diff --git a/build.py b/build.py").currentFile = some "uild.py" ∧
    pyLstrip ['b', '/'] "b/build.py" = "uild.py" ∧
    "uild.py" ≠ "build.py" := by
  refine ⟨by decide, by decide, by decide⟩

/-- C8 counterexample: with `totalBudget = 1` smaller than the manifest for
one file, the returned string is the manifest alone — it is not the manifest
followed by a truncation marker. -/
theorem negative_budget_counterexample :
    truncateDiff "x" ["a"] 1 1 = buildFileListSection ["a"] ∧
    truncateDiff "x" ["a"] 1 1 ≠ buildFileListSection ["a"] ++ truncMarker := by
  constructor <;> decide

/-- C10 counterexample: inside a hunk, a `--- a/...` line starts with `-`
and is handled by the removed-line branch, so it does not advance the
new-line counter: the following added line is reported at position 1, not 2. -/
theorem triple_dash_counterexample :
    extractAddedLinesWithPositions "@@ -1,1 +1,1 @@\n--- a/foo\n+x" = [(1, "x")] ∧
    extractAddedLinesWithPositions "@@ -1,1 +1,1 @@\n--- a/foo\n+x" ≠ [(2, "x")] ∧
    (hunkStep ⟨7, true, []⟩ "--- a/foo").currentNewLine = 7 := by
  refine ⟨by decide, by decide, by decide⟩

/-- C10 (amended): once the first hunk header has been seen the tracker never
returns to the outside-hunk state; while inside a hunk, every line that does
not start with `-`, `+`, `\` or `@@` advances the new-line counter as a
context line without being recorded (this covers `diff --git ...` and
`index ...` lines of later file sections), and every line starting with `-`
(including `--- a/...` metadata lines) is treated as a removed line, leaving
the state unchanged. -/
theorem in_hunk_absorbing :
    (∀ (st : HunkState) (line : String), st.inHunk = true →
      (hunkStep st line).inHunk = true) ∧
    (∀ (st : HunkState) (line : String), st.inHunk = true →
      pyStartsWith line "@@" = false → pyStartsWith line "-" = false →
      pyStartsWith line "+" = false → pyStartsWith line "\\" = false →
      (hunkStep st line).currentNewLine = st.currentNewLine + 1 ∧
      (hunkStep st line).acc = st.acc) ∧
    (∀ (st : HunkState) (line : String), st.inHunk = true →
      pyStartsWith line "-" = true → hunkStep st line = st) := by
  refine ⟨?_, ?_, ?_⟩
  · intro st line hin
    unfold hunkStep
    by_cases hAt : pyStartsWith line "@@"
    · simp only [hAt, if_true]
      cases parseNewStart line <;> rfl
    · simp only [hAt, Bool.false_eq_true, if_false, hin, Bool.not_true]
      split_ifs <;> simp [hin]
  · intro st line hin hAt hDash hPlus hBack
    simp [hunkStep, hAt, hin, hDash, hPlus, hBack]
  · intro st line hin hDash
    obtain ⟨l', hl', _⟩ := @chStarts_cons '-' [] line.data
      (by simpa [pyStartsWith, show ("-" : String).data = ['-'] from rfl] using hDash)
    have hAt : pyStartsWith line "@@" = false := by
      simp [pyStartsWith, hl', show ("@@" : String).data = ['@', '@'] from rfl, chStarts,
        show ('@' == '-') = false from rfl]
    simp [hunkStep, hAt, hin, hDash]

/-- Witness for amended C10 at concrete in-hunk states: a `diff --git` line
and an `index` line advance the counter, and a `--- a/...` line leaves the
state unchanged. -/
theorem in_hunk_absorbing_witness :
    ((hunkStep ⟨4, true, []⟩ "diff --git a/x b/x").inHunk = true) ∧
    ((hunkStep ⟨4, true, []⟩ "diff --git a/x b/x").currentNewLine
        = (⟨4, true, []⟩ : HunkState).currentNewLine + 1 ∧
      (hunkStep ⟨4, true, []⟩ "diff --git a/x b/x").acc = (⟨4, true, []⟩ : HunkState).acc) ∧
    ((hunkStep ⟨4, true, []⟩ "index 1234..5678 100644").currentNewLine
        = (⟨4, true, []⟩ : HunkState).currentNewLine + 1 ∧
      (hunkStep ⟨4, true, []⟩ "index 1234..5678 100644").acc
        = (⟨4, true, []⟩ : HunkState).acc) ∧
    hunkStep ⟨4, true, []⟩ "--- a/foo" = ⟨4, true, []⟩ :=
  ⟨in_hunk_absorbing.1 ⟨4, true, []⟩ "diff --git a/x b/x" rfl,
   in_hunk_absorbing.2.1 ⟨4, true, []⟩ "diff --git a/x b/x" rfl
     (by decide) (by decide) (by decide) (by decide),
   in_hunk_absorbing.2.1 ⟨4, true, []⟩ "index 1234..5678 100644" rfl
     (by decide) (by decide) (by decide) (by decide),
   in_hunk_absorbing.2.2 ⟨4, true, []⟩ "--- a/foo" rfl (by decide)⟩

/-- C9 counterexample: a parse yielding the number `0` — a non-mapping
top-level value — is reported as "YAML is empty", not as "YAML must be a
dictionary/object", because the code tests Python falsiness first. -/
theorem falsy_nonmapping_counterexample :
    validateParsed defaultConfig (.ok (.vint 0)) = (false, ["YAML is empty"]) ∧
    validateParsed defaultConfig (.ok (.vint 0))
      ≠ (false, ["YAML must be a dictionary/object"]) := by
  constructor <;> decide

/-- C9 (amended): `validate` short-circuits only on parse-level problems,
each yielding exactly one error: a document that is falsy in Python's sense
(null — the parse of empty input — false, zero, an empty string, sequence or
mapping) yields the single error "YAML is empty"; a truthy non-mapping
document yields the single error "YAML must be a dictionary/object"; a parse
failure yields a single "Invalid YAML" error. -/
theorem parse_level_short_circuit (cfg : ValidatorConfig) (entry : Yaml) (e : String) :
    (yamlFalsy entry = true → validateParsed cfg (.ok entry) = (false, ["YAML is empty"])) ∧
    (yamlFalsy entry = false → isYamlMap entry = false →
      validateParsed cfg (.ok entry) = (false, ["YAML must be a dictionary/object"])) ∧
    validateParsed cfg (.error e) = (false, ["Invalid YAML: " ++ e]) := by
  refine ⟨?_, ?_, rfl⟩
  · intro h
    simp [validateParsed, h]
  · intro h hm
    cases entry <;> simp_all [validateParsed, isYamlMap]

/-- When the scan stops on a line while nothing has been emitted yet, no
truncation marker is appended: the state merely becomes broken. -/
lemma truncStep_exhausted_empty (m : Nat) (a : Int) (st : TruncState) (l : String)
    (hb : st.broken = false) (hr : st.resultLines = [])
    (hbud : ((st.totalChars + l.length + 1 : Nat) : Int) > a) :
    truncStep m a st l = { trackFile st l with broken := true } := by
  simp only [truncStep, truncStepE, hb, Bool.false_eq_true, if_false]
  rw [if_pos (by rwa [trackFile_totalChars])]
  rw [if_neg (by simp [trackFile_resultLines, hr])]

/-- C8 (amended): when `totalBudget` minus the manifest length is negative,
the compressor returns (totally — the embedding is a total function, there is
no error path) the manifest exactly: the body is empty, and no truncation
marker is appended because nothing had been emitted when the budget check
first failed. -/
theorem negative_budget_manifest_only (diff : String) (files : List String)
    (t f : Nat) (h : (t : Int) - ((buildFileListSection files).length : Int) < 0) :
    truncateDiff diff files t f = buildFileListSection files := by
  unfold truncateDiff
  obtain ⟨l0, ls, hls⟩ : ∃ l0 ls, pySplitChar diff '\n' = l0 :: ls := by
    cases hsp : pySplitChar diff '\n' with
    | nil => exact absurd hsp (pySplitChar_ne_nil diff '\n')
    | cons x xs => exact ⟨x, xs, rfl⟩
  rw [hls, List.foldl_cons,
    truncStep_exhausted_empty f _ ⟨[], none, 0, 0, false⟩ l0 rfl rfl
      (by push_cast; omega),
    foldl_truncStep_broken _ _ _ _ rfl]
  show buildFileListSection files
      ++ pyJoin "\n" (trackFile ⟨[], none, 0, 0, false⟩ l0).resultLines
    = buildFileListSection files
  rw [trackFile_resultLines]
  exact str_append_empty _

/-- Witness for amended C8 at a concrete diff, file list and budget. -/
theorem negative_budget_manifest_only_witness :
    truncateDiff "diff --git a/z b/z\n+q" ["z"] 3 2 = buildFileListSection ["z"] :=
  negative_budget_manifest_only "diff --git a/z b/z\n+q" ["z"] 3 2 (by decide)

/-- C3: the retry loop makes at most as many oracle calls as it has attempts
(for the source's `max_retries = 2`, at most 3); and with an oracle that
always produces output failing validation it makes exactly 3 calls, then
returns no entry, `is_valid = false`, and a message joining the last
attempt's validation errors with "; ". -/
theorem retry_loop_call_bound_and_exhaustion :
    (∀ (oracle : Nat → Option String) (validator : String → Bool × List String)
      (r attempt : Nat) (errs : List String),
      (genLoopAux oracle validator r attempt errs).2 ≤ r) ∧
    (∀ (gen : Nat → String) (validator : String → Bool × List String),
      (∀ s, (validator s).1 = false) →
      generateWithValidationCalls (fun n => some (gen n)) validator = 3 ∧
      (generateWithValidation (fun n => some (gen n)) validator).1 = none ∧
      (generateWithValidation (fun n => some (gen n)) validator).2.1 = false ∧
      (generateWithValidation (fun n => some (gen n)) validator).2.2
        = "Entry failed validation: " ++ pyJoin "; " (validator (gen 3)).2) := by
  constructor
  · intro oracle validator r
    induction r with
    | zero => intro attempt errs; simp [genLoopAux]
    | succ r ih =>
      intro attempt errs
      cases r with
      | zero =>
        cases h : oracle attempt with
        | none => simp [genLoopAux, h]
        | some g =>
          by_cases hv : (validator g).1 <;> simp [genLoopAux, h, hv]
      | succ r' =>
        cases h : oracle attempt with
        | none =>
          have := ih (attempt + 1) errs
          simp only [genLoopAux, h]
          omega
        | some g =>
          by_cases hv : (validator g).1
          · simp [genLoopAux, h, hv]
          · have := ih (attempt + 1) (validator g).2
            simp only [genLoopAux, h, hv, Bool.false_eq_true, if_false]
            omega
  · intro gen validator hval
    simp [generateWithValidationCalls, generateWithValidation, genLoopAux, hval]

/-- Witness for C3: the call bound at a concrete oracle and fuel, and the
exhaustion behaviour at a concrete always-invalid validator. -/
theorem retry_loop_call_bound_and_exhaustion_witness :
    (genLoopAux (fun _ => none) (fun _ => (true, [])) 3 1 []).2 ≤ 3 ∧
    generateWithValidationCalls (fun n => some (natToStr n)) (fun _ => (false, ["bad"])) = 3 ∧
    (generateWithValidation (fun n => some (natToStr n)) (fun _ => (false, ["bad"]))).2.1
      = false ∧
    (generateWithValidation (fun n => some (natToStr n)) (fun _ => (false, ["bad"]))).2.2
      = "Entry failed validation: bad" := by
  have h2 := retry_loop_call_bound_and_exhaustion.2 (fun n => natToStr n)
    (fun _ => (false, ["bad"])) (fun _ => rfl)
  exact ⟨retry_loop_call_bound_and_exhaustion.1 (fun _ => none) (fun _ => (true, [])) 3 1 [],
    h2.1, h2.2.2.1, h2.2.2.2.trans (by decide)⟩

/-- Witness for amended C9: the empty parse (None) and a truthy non-mapping
value at the default configuration. -/
theorem parse_level_short_circuit_witness :
    validateParsed defaultConfig (.ok .vnull) = (false, ["YAML is empty"]) ∧
    validateParsed defaultConfig (.ok (.vint 5))
      = (false, ["YAML must be a dictionary/object"]) ∧
    validateParsed defaultConfig (.error "mapping values are not allowed here")
      = (false, ["Invalid YAML: mapping values are not allowed here"]) :=
  ⟨(parse_level_short_circuit defaultConfig .vnull "x").1 (by decide),
   (parse_level_short_circuit defaultConfig (.vint 5) "x").2.1 (by decide) (by decide),
   (parse_level_short_circuit defaultConfig .vnull
     "mapping values are not allowed here").2.2⟩

end Logchange
